import Mathlib

/-!
Verification development for the CN24 `DatasetInputLayer`
(`src/src/net/DatasetInputLayer.cpp`).

The C++ class is embedded shallowly: the mutable members of the class become
fields of a Lean structure (keeping the source's trailing-underscore names),
each member function becomes a pure function from the old state to the new
state together with its outputs, and the `std::vector<unsigned int> perm_`
becomes a `List Nat`.
-/

/-- The contents of the single-channel localized-error (loss-weight) map for
one batch slot: a value for each spatial coordinate `(x, y)`.  The C++ `datum`
is `float`; weights are modelled as rationals since the claims only compare
them with `0` and with the loss-sampling probability. -/
abbrev WMap := Nat → Nat → ℚ

/-- Model of the external C++ standard-library engine `std::mt19937
generator_` (an external collaborator: the exact word sequence of the
Mersenne twister is irrelevant to every claim, only that it is a
deterministic stream seeded once).  Modelled as a small deterministic
linear-congruential state machine. -/
structure Generator where
  state : Nat
deriving DecidableEq, Repr

/-- One step of the generator: returns the drawn raw value (always `< 65537`)
and the advanced generator. -/
def Generator.next (g : Generator) : Nat × Generator :=
  let s := (75 * g.state + 74) % 65537
  (s, ⟨s⟩)

/-- The generator advanced by `n` draws. -/
def Generator.advanceN (g : Generator) : Nat → Generator
  | 0 => g
  | n + 1 => (g.next.2).advanceN n

/-- Model of `dist_(generator_)` where `dist_` is
`std::uniform_real_distribution<datum>(0.0, 1.0)`: one draw in `[0, 1)`
consuming one generator step. -/
def unitDraw (g : Generator) : ℚ × Generator :=
  let rg := g.next
  ((rg.1 : ℚ) / 65537, rg.2)

/-- The value of the `k`-th unit draw taken from `g` (draw number `k`,
zero-based, after `k` earlier draws were consumed). -/
def nthDraw (g : Generator) (k : Nat) : ℚ :=
  (unitDraw (g.advanceN k)).1

/-- `std::iter_swap` of positions `i` and `j` of a vector, as performed by
`std::shuffle`: exchange the elements at the two positions. -/
def listSwap (l : List Nat) (i j : Nat) : List Nat :=
  (l.set i (l.getD j 0)).set j (l.getD i 0)

/-- The loop body chain of `std::shuffle(perm_.begin(), perm_.end(),
generator_)`: for `i = n-1` down to `1`, draw `j` uniformly in `[0, i]` and
swap positions `i` and `j`.  `shuffleGo l g i` performs the iterations for
the current index `i` down to `1` (`i = 0` ends the loop). -/
def shuffleGo : List Nat → Generator → Nat → List Nat × Generator
  | l, g, 0 => (l, g)
  | l, g, i + 1 =>
    let rg := Generator.next g
    shuffleGo (listSwap l (i + 1) (rg.1 % (i + 2))) rg.2 i

/-- `std::shuffle` over the whole vector with the layer's own generator. -/
def shuffle (l : List Nat) (g : Generator) : List Nat × Generator :=
  shuffleGo l g (l.length - 1)

/-- The external `Dataset` collaborator (consumed, not implemented, by this
repository): geometry, channel counts, sample counts, and per-index fetch
operations.  A fetch returning `none` models the C++ fetch returning
`false`; a fetch returning `some w` models success, with `w` the
localized-error (loss-weight) content it writes for the requested sample
(the data and label tensor contents are not referenced by any claim). -/
structure Dataset where
  GetWidth : Nat
  GetHeight : Nat
  GetInputMaps : Nat
  GetLabelMaps : Nat
  GetTrainingSamples : Nat
  GetTestingSamples : Nat
  GetTrainingSample : Nat → Option WMap
  GetTestingSample : Nat → Option WMap

/-- The mutable state of a `DatasetInputLayer`, with the source's member
names.  `reshuffles_ghost` is a ghost counter (not present in the C++
class) incremented exactly when `RedoPermutation` runs, used only to state
how many reshuffles occurred. -/
structure DatasetInputLayer where
  dataset_ : Dataset
  batch_size_ : Nat
  loss_sampling_p_ : ℚ
  seed_ : Nat
  generator_ : Generator
  input_maps_ : Nat
  label_maps_ : Nat
  elements_training_ : Nat
  elements_testing_ : Nat
  elements_total_ : Nat
  perm_ : List Nat
  current_element_ : Nat
  current_element_testing_ : Nat
  testing_ : Bool
  reshuffles_ghost : Nat

/-- `DatasetInputLayer::RedoPermutation`: shuffle `perm_` in place with the
layer's own `generator_` (which advances).  Also bumps the ghost reshuffle
counter. -/
def DatasetInputLayer.RedoPermutation (L : DatasetInputLayer) : DatasetInputLayer :=
  let pg := shuffle L.perm_ L.generator_
  { L with perm_ := pg.1, generator_ := pg.2, reshuffles_ghost := L.reshuffles_ghost + 1 }

/-- The `DatasetInputLayer` constructor: caches counts and geometry, seeds
the generator once from `seed`, builds the ascending identity permutation
over `[0, training_count)` and performs the initial `RedoPermutation()`.
The cursors start at `0` and the layer starts in training mode (the member
initializers live in the header `DatasetInputLayer.h`, which is not part of
this source fragment; their start values are modelled from the spec's
"fresh cursor" / mode-flag description). -/
def DatasetInputLayer.construct (dataset : Dataset) (batch_size : Nat)
    (loss_sampling_p : ℚ) (seed : Nat) : DatasetInputLayer :=
  DatasetInputLayer.RedoPermutation
    { dataset_ := dataset
      batch_size_ := batch_size
      loss_sampling_p_ := loss_sampling_p
      seed_ := seed
      generator_ := ⟨seed⟩
      input_maps_ := dataset.GetInputMaps
      label_maps_ := dataset.GetLabelMaps
      elements_training_ := dataset.GetTrainingSamples
      elements_testing_ := dataset.GetTestingSamples
      elements_total_ := dataset.GetTrainingSamples + dataset.GetTestingSamples
      perm_ := List.range dataset.GetTrainingSamples
      current_element_ := 0
      current_element_testing_ := 0
      testing_ := false
      reshuffles_ghost := 0 }

/-- Result of the index-selection step at the top of the per-sample loop of
`DatasetInputLayer::FeedForward` (the `if (testing_) ... else ...` block):
the chosen `selected_element`, the `force_no_weight` flag, and the updated
layer state. -/
structure Selection where
  selected_element : Nat
  force_no_weight : Bool
  layer : DatasetInputLayer

/-- The index-selection step of one batch slot of `FeedForward`
(`DatasetInputLayer.cpp` lines 116-143).  Testing mode: use
`current_element_testing_`, post-increment it, and if the incremented cursor
has reached `elements_testing_`, set `force_no_weight` and force index `0`.
Training mode: use `perm_[current_element_]`, post-increment the cursor, and
if it reached `perm_.size()`, reset it to `0` and `RedoPermutation()`. -/
def DatasetInputLayer.selectElement (L : DatasetInputLayer) : Selection :=
  if L.testing_ then
    let selected := L.current_element_testing_
    let cur := L.current_element_testing_ + 1
    if L.elements_testing_ ≤ cur then
      { selected_element := 0, force_no_weight := true,
        layer := { L with current_element_testing_ := cur } }
    else
      { selected_element := selected, force_no_weight := false,
        layer := { L with current_element_testing_ := cur } }
  else
    let selected := L.perm_.getD L.current_element_ 0
    let cur := L.current_element_ + 1
    if L.perm_.length ≤ cur then
      { selected_element := selected, force_no_weight := false,
        layer := DatasetInputLayer.RedoPermutation { L with current_element_ := 0 } }
    else
      { selected_element := selected, force_no_weight := false,
        layer := { L with current_element_ := cur } }

/-- The fixed spatial block edge used by the loss-sampling loops. -/
def block_size : Nat := 12

/-- The start offsets visited by a loop `for (v = 0; v < bound; v += block_size)`:
`0, block_size, 2*block_size, ...` while below `bound`. -/
def blockStarts (bound : Nat) : List Nat :=
  (List.range ((bound + block_size - 1) / block_size)).map (fun i => i * block_size)

/-- The block corner coordinates `(x, y)` visited by the nested loss-sampling
loops of `FeedForward` (outer loop over `y`, inner loop over `x`), in
visiting order. -/
def blockList (w h : Nat) : List (Nat × Nat) :=
  ((blockStarts h).map (fun y0 => (blockStarts w).map (fun x0 => (x0, y0)))).flatten

/-- Whether coordinate `(x, y)` lies in the block with corner `(x0, y0)`,
clipped at the image boundary `w × h` — exactly the ranges written by the
two inner zeroing loops (`iy < y+block_size && iy < height`, same for
`ix`). -/
def covers (w h : Nat) (b : Nat × Nat) (x y : Nat) : Prop :=
  b.1 ≤ x ∧ x < b.1 + block_size ∧ x < w ∧ b.2 ≤ y ∧ y < b.2 + block_size ∧ y < h

instance (w h : Nat) (b : Nat × Nat) (x y : Nat) : Decidable (covers w h b x y) := by
  unfold covers; infer_instance

/-- The effect of the two inner zeroing loops: write `0` at every coordinate
of the block with corner `(x0, y0)`, clipped at the image boundary. -/
def zeroBlock (w h x0 y0 : Nat) (m : WMap) : WMap :=
  fun x y => if covers w h (x0, y0) x y then 0 else m x y

/-- One iteration of the per-block loop: draw one uniform value from the
generator (the draw happens for every block, it is the `if` condition), and
zero the whole clipped block exactly when the draw exceeds
`loss_sampling_p_`. -/
def blockStep (w h : Nat) (p : ℚ) (acc : WMap × Generator) (b : Nat × Nat) : WMap × Generator :=
  let ug := unitDraw acc.2
  (if p < ug.1 then zeroBlock w h b.1 b.2 acc.1 else acc.1, ug.2)

/-- The whole loss-sampling nest of `FeedForward` (lines 161-172): visit the
blocks in loop order, one draw per block, threading the shared generator. -/
def blockSample (w h : Nat) (p : ℚ) (m : WMap) (g : Generator) : WMap × Generator :=
  (blockList w h).foldl (blockStep w h p) (m, g)

/-- The body of one iteration of the per-sample loop of `FeedForward`:
index selection, the dataset fetch (mode-dependent; `none` models the C++
fetch returning `false`, on which `FATAL` halts the process), the
loss-sampling nest (training mode, non-padding only), and the final
`Clear(0.0, sample)` of the loss-weight slot for padding samples.
Returns the slot's selected index, padding flag and final loss-weight map,
or the fatal message. -/
def DatasetInputLayer.processSlot (L : DatasetInputLayer) :
    Except String (Selection × WMap) :=
  let s := L.selectElement
  let fetched := if L.testing_ then L.dataset_.GetTestingSample s.selected_element
                 else L.dataset_.GetTrainingSample s.selected_element
  match fetched with
  | none => .error "Cannot load samples from Dataset!"
  | some wm =>
    let wg :=
      if !L.testing_ && !s.force_no_weight then
        blockSample L.dataset_.GetWidth L.dataset_.GetHeight L.loss_sampling_p_ wm
          s.layer.generator_
      else (wm, s.layer.generator_)
    let final : WMap := if s.force_no_weight then (fun _ _ => 0) else wg.1
    .ok ({ s with layer := { s.layer with generator_ := wg.2 } }, final)

/-- Outcome of one `FeedForward` call: either the whole batch was filled
(`ok`), or a dataset fetch failed and `FATAL` halted execution (`fatal`),
recording the slots that had been filled before the halt and the state at
the halt.  Each filled slot is its `Selection` paired with its final
loss-weight map. -/
inductive FFOutcome where
  | ok (slots : List (Selection × WMap)) (layer : DatasetInputLayer)
  | fatal (msg : String) (slots : List (Selection × WMap)) (layer : DatasetInputLayer)

/-- The layer state after the call (at the halt, for `fatal`). -/
def FFOutcome.layer : FFOutcome → DatasetInputLayer
  | .ok _ L => L
  | .fatal _ _ L => L

/-- The batch slots that were filled. -/
def FFOutcome.slots : FFOutcome → List (Selection × WMap)
  | .ok s _ => s
  | .fatal _ s _ => s

/-- The per-sample loop of `FeedForward`, with `n` slots left to fill and
the already-filled slots accumulated in reverse. -/
def DatasetInputLayer.feedForwardAux :
    Nat → DatasetInputLayer → List (Selection × WMap) → FFOutcome
  | 0, L, acc => .ok acc.reverse L
  | n + 1, L, acc =>
    match L.processSlot with
    | .ok sw => DatasetInputLayer.feedForwardAux n sw.1.layer (sw :: acc)
    | .error msg => .fatal msg acc.reverse L

/-- `DatasetInputLayer::FeedForward`: fill `batch_size_` samples. -/
def DatasetInputLayer.FeedForward (L : DatasetInputLayer) : FFOutcome :=
  DatasetInputLayer.feedForwardAux L.batch_size_ L []

/-- `DatasetInputLayer::SetTestingMode` (lines 202-215): only on an actual
flip of the mode flag, and only when entering testing mode, reset
`current_element_testing_` to `0`; in every case store the new mode flag. -/
def DatasetInputLayer.SetTestingMode (L : DatasetInputLayer) (testing : Bool) :
    DatasetInputLayer :=
  let L1 := if testing ≠ L.testing_ then
              (if testing then { L with current_element_testing_ := 0 } else L)
            else L
  { L1 with testing_ := testing }

/-- A `CombinedTensor*`: a pointer that may be null (`none`). The pointee is
abstracted to an identifier. -/
abbrev CTPtr := Option Nat

/-- Result of `Connect`: the returned `bool`, and the four bound output
members `(data_output_, label_output_, helper_output_, localized_error_output_)`
when the body reached the `if (valid)` assignment block (`none` when it did
not bind them). -/
structure ConnectResult where
  ret : Bool
  bound : Option (CTPtr × CTPtr × CTPtr × CTPtr)

/-- `DatasetInputLayer::Connect` (lines 85-107), embedded totally: the four
reads `outputs[0] ... outputs[3]` happen unconditionally before any check,
so an `outputs` vector shorter than 4 makes the very first statements
out-of-bounds accesses (undefined behaviour in C++), modelled as `none`.
Otherwise: return `false` without binding if the data, label or
localized-error pointer is null (the helper pointer is not checked); then
compute `valid` as "no inputs and exactly four outputs" and bind the four
members exactly when `valid` holds. -/
def DatasetInputLayer.Connect (inputs outputs : List CTPtr) : Option ConnectResult :=
  match outputs with
  | data_output :: label_output :: helper_output :: localized_error_output :: _ =>
    if data_output = none ∨ label_output = none ∨ localized_error_output = none then
      some { ret := false, bound := none }
    else
      some { ret := inputs.length == 0 && outputs.length == 4,
             bound := if inputs.length == 0 && outputs.length == 4 then
                        some (data_output, label_output, helper_output,
                              localized_error_output)
                      else none }
  | _ => none

/-- The per-call lists of selected sample indices produced by `n` successive
`FeedForward` calls starting from layer state `L` (a `fatal` outcome halts
the process, so later calls never happen). -/
def runCalls : Nat → DatasetInputLayer → List (List Nat)
  | 0, _ => []
  | n + 1, L =>
    match L.FeedForward with
    | .ok slots L' => slots.map (fun sw => sw.1.selected_element) :: runCalls n L'
    | .fatal _ slots _ => [slots.map (fun sw => sw.1.selected_element)]

theorem listSwap_length (l : List Nat) (i j : Nat) : (listSwap l i j).length = l.length := by
  simp [listSwap]

theorem getD_cons_set_perm :
    ∀ (t : List Nat) (k : Nat) (a : Nat), k < t.length →
      List.Perm (t.getD k 0 :: t.set k a) (a :: t) := by
  intro t
  induction t with
  | nil => intro k a hk; simp at hk
  | cons b s ih =>
    intro k a hk
    cases k with
    | zero =>
      simp only [List.getD_cons_zero, List.set_cons_zero]
      exact List.Perm.swap a b s
    | succ k =>
      simp only [List.getD_cons_succ, List.set_cons_succ]
      have hks : k < s.length := by simpa using hk
      exact (List.Perm.swap b (s.getD k 0) (s.set k a)).trans
        ((List.Perm.cons b (ih k a hks)).trans (List.Perm.swap a b s))

theorem listSwap_perm :
    ∀ (l : List Nat) (i j : Nat), i < l.length → j < l.length →
      List.Perm (listSwap l i j) l := by
  intro l
  induction l with
  | nil => intro i j hi _; simp at hi
  | cons a t ih =>
    intro i j hi hj
    cases i with
    | zero =>
      cases j with
      | zero =>
        simp [listSwap]
      | succ k =>
        have hk : k < t.length := by simpa using hj
        simp only [listSwap, List.getD_cons_succ, List.getD_cons_zero, List.set_cons_zero,
          List.set_cons_succ]
        exact getD_cons_set_perm t k a hk
    | succ m =>
      have hm : m < t.length := by simpa using hi
      cases j with
      | zero =>
        simp only [listSwap, List.getD_cons_zero, List.getD_cons_succ, List.set_cons_succ,
          List.set_cons_zero]
        exact getD_cons_set_perm t m a hm
      | succ k =>
        have hk : k < t.length := by simpa using hj
        simp only [listSwap, List.getD_cons_succ, List.set_cons_succ]
        exact List.Perm.cons a (ih m k hm hk)

theorem shuffleGo_perm :
    ∀ (n : Nat) (l : List Nat) (g : Generator), n < l.length →
      List.Perm (shuffleGo l g n).1 l := by
  intro n
  induction n with
  | zero => intro l g _; exact List.Perm.refl l
  | succ n ih =>
    intro l g hn
    have hj : (Generator.next g).1 % (n + 2) < l.length :=
      lt_of_le_of_lt (Nat.le_of_lt_succ (Nat.mod_lt _ (Nat.succ_pos (n + 1)))) hn
    have hlen : n < (listSwap l (n + 1) ((Generator.next g).1 % (n + 2))).length := by
      rw [listSwap_length]
      exact Nat.lt_of_succ_lt hn
    have h1 := ih (listSwap l (n + 1) ((Generator.next g).1 % (n + 2))) (Generator.next g).2 hlen
    have h2 := listSwap_perm l (n + 1) ((Generator.next g).1 % (n + 2)) hn hj
    exact (h1.trans h2)

theorem shuffle_perm (l : List Nat) (g : Generator) : List.Perm (shuffle l g).1 l := by
  cases l with
  | nil => exact List.Perm.refl _
  | cons a t =>
    have : (a :: t).length - 1 < (a :: t).length := by simp
    exact shuffleGo_perm ((a :: t).length - 1) (a :: t) g this

/-- The reachable states of one `DatasetInputLayer` instance constructed
with the given arguments: the constructed state, and closure under
`FeedForward` (in either mode, including a run halted by `FATAL`) and
`SetTestingMode`. -/
inductive Reachable (d : Dataset) (bs : Nat) (p : ℚ) (s : Nat) : DatasetInputLayer → Prop
  | construct : Reachable d bs p s (DatasetInputLayer.construct d bs p s)
  | feed (L : DatasetInputLayer) : Reachable d bs p s L →
      Reachable d bs p s (L.FeedForward).layer
  | mode (L : DatasetInputLayer) (b : Bool) : Reachable d bs p s L →
      Reachable d bs p s (L.SetTestingMode b)

/-- The permutation invariant: `perm_` is a rearrangement of
`[0, elements_training_)`. -/
def permOK (L : DatasetInputLayer) : Prop :=
  List.Perm L.perm_ (List.range L.elements_training_)

theorem RedoPermutation_permOK (L : DatasetInputLayer) (h : permOK L) :
    permOK L.RedoPermutation := by
  unfold permOK DatasetInputLayer.RedoPermutation at *
  exact (shuffle_perm L.perm_ L.generator_).trans h

theorem RedoPermutation_elements (L : DatasetInputLayer) :
    L.RedoPermutation.elements_training_ = L.elements_training_ := rfl

theorem selectElement_permOK (L : DatasetInputLayer) (h : permOK L) :
    permOK (L.selectElement).layer := by
  simp only [DatasetInputLayer.selectElement]
  split
  · split
    · exact h
    · exact h
  · split
    · exact RedoPermutation_permOK _ h
    · exact h

theorem processSlot_permOK (L : DatasetInputLayer) (sw : Selection × WMap)
    (hok : L.processSlot = .ok sw) (h : permOK L) : permOK sw.1.layer := by
  have hsel : permOK (L.selectElement).layer := selectElement_permOK L h
  simp only [DatasetInputLayer.processSlot] at hok
  split at hok
  · simp at hok
  · simp only [Except.ok.injEq] at hok
    subst hok
    exact hsel

theorem feedForwardAux_permOK :
    ∀ (n : Nat) (L : DatasetInputLayer) (acc : List (Selection × WMap)),
      permOK L → permOK (DatasetInputLayer.feedForwardAux n L acc).layer := by
  intro n
  induction n with
  | zero => intro L acc h; exact h
  | succ n ih =>
    intro L acc h
    unfold DatasetInputLayer.feedForwardAux
    cases hs : L.processSlot with
    | ok sw =>
      exact ih sw.1.layer (sw :: acc) (processSlot_permOK L sw hs h)
    | error msg =>
      exact h

theorem FeedForward_permOK (L : DatasetInputLayer) (h : permOK L) :
    permOK (L.FeedForward).layer :=
  feedForwardAux_permOK L.batch_size_ L [] h

theorem SetTestingMode_permOK (L : DatasetInputLayer) (b : Bool) (h : permOK L) :
    permOK (L.SetTestingMode b) := by
  simp only [DatasetInputLayer.SetTestingMode]
  split
  · split
    · exact h
    · exact h
  · exact h

theorem construct_permOK (d : Dataset) (bs : Nat) (p : ℚ) (s : Nat) :
    permOK (DatasetInputLayer.construct d bs p s) := by
  unfold DatasetInputLayer.construct
  apply RedoPermutation_permOK
  unfold permOK
  exact List.Perm.refl _

theorem reachable_permOK (d : Dataset) (bs : Nat) (p : ℚ) (s : Nat)
    (L : DatasetInputLayer) (h : Reachable d bs p s L) : permOK L := by
  induction h with
  | construct => exact construct_permOK d bs p s
  | feed M _ ih => exact FeedForward_permOK M ih
  | mode M b _ ih => exact SetTestingMode_permOK M b ih

theorem selectElement_elements (L : DatasetInputLayer) :
    (L.selectElement).layer.elements_training_ = L.elements_training_ ∧
    (L.selectElement).layer.elements_testing_ = L.elements_testing_ ∧
    (L.selectElement).layer.dataset_ = L.dataset_ ∧
    (L.selectElement).layer.batch_size_ = L.batch_size_ ∧
    (L.selectElement).layer.testing_ = L.testing_ := by
  simp only [DatasetInputLayer.selectElement]
  split
  · split <;> exact ⟨rfl, rfl, rfl, rfl, rfl⟩
  · split <;> exact ⟨rfl, rfl, rfl, rfl, rfl⟩

theorem processSlot_elements (L : DatasetInputLayer) (sw : Selection × WMap)
    (hok : L.processSlot = .ok sw) :
    sw.1.layer.elements_training_ = L.elements_training_ ∧
    sw.1.layer.elements_testing_ = L.elements_testing_ ∧
    sw.1.layer.dataset_ = L.dataset_ ∧
    sw.1.layer.batch_size_ = L.batch_size_ ∧
    sw.1.layer.testing_ = L.testing_ := by
  simp only [DatasetInputLayer.processSlot] at hok
  split at hok
  · simp at hok
  · simp only [Except.ok.injEq] at hok
    subst hok
    exact selectElement_elements L

theorem feedForwardAux_elements :
    ∀ (n : Nat) (L : DatasetInputLayer) (acc : List (Selection × WMap)),
      (DatasetInputLayer.feedForwardAux n L acc).layer.elements_training_ =
        L.elements_training_ ∧
      (DatasetInputLayer.feedForwardAux n L acc).layer.dataset_ = L.dataset_ := by
  intro n
  induction n with
  | zero => intro L acc; exact ⟨rfl, rfl⟩
  | succ n ih =>
    intro L acc
    unfold DatasetInputLayer.feedForwardAux
    cases hs : L.processSlot with
    | ok sw =>
      have h1 := ih sw.1.layer (sw :: acc)
      have h2 := processSlot_elements L sw hs
      exact ⟨h1.1.trans h2.1, h1.2.trans h2.2.2.1⟩
    | error msg => exact ⟨rfl, rfl⟩

theorem SetTestingMode_elements (L : DatasetInputLayer) (b : Bool) :
    (L.SetTestingMode b).elements_training_ = L.elements_training_ ∧
    (L.SetTestingMode b).dataset_ = L.dataset_ := by
  simp only [DatasetInputLayer.SetTestingMode]
  split
  · split <;> exact ⟨rfl, rfl⟩
  · exact ⟨rfl, rfl⟩

theorem reachable_training_count (d : Dataset) (bs : Nat) (p : ℚ) (s : Nat)
    (L : DatasetInputLayer) (h : Reachable d bs p s L) :
    L.elements_training_ = d.GetTrainingSamples := by
  induction h with
  | construct => rfl
  | feed M _ ih => exact (feedForwardAux_elements M.batch_size_ M []).1.trans ih
  | mode M b _ ih => exact (SetTestingMode_elements M b).1.trans ih

/-- A constant all-ones loss-weight map used by the concrete test datasets. -/
def wOne : WMap := fun _ _ => 1

/-- Concrete dataset: 5 training and 2 testing samples, 1x1 geometry, every
fetch succeeds (the end-to-end scenario of the spec). -/
def dsFive : Dataset := ⟨1, 1, 1, 1, 5, 2, fun _ => some wOne, fun _ => some wOne⟩

/-- Concrete dataset: 2 training and 3 testing samples. -/
def dsTwoThree : Dataset := ⟨1, 1, 1, 1, 2, 3, fun _ => some wOne, fun _ => some wOne⟩

/-- Concrete dataset: 1 training and 1 testing sample. -/
def dsOneOne : Dataset := ⟨1, 1, 1, 1, 1, 1, fun _ => some wOne, fun _ => some wOne⟩

/-- Concrete dataset: 1 training and 2 testing samples. -/
def dsOneTwo : Dataset := ⟨1, 1, 1, 1, 1, 2, fun _ => some wOne, fun _ => some wOne⟩

/-- Claim C4: at every reachable state of a `DatasetInputLayer` (after
construction, any number of `FeedForward` calls in either mode, and any
number of reshuffles) `perm_` is a bijection on `[0, training_count)`: its
length is the cached training count and sorting it yields
`[0, 1, ..., training_count-1]`. -/
theorem C4_perm_bijection (d : Dataset) (bs : Nat) (p : ℚ) (s : Nat)
    (L : DatasetInputLayer) (h : Reachable d bs p s L) :
    L.perm_.length = L.elements_training_ ∧
    List.Perm L.perm_ (List.range L.elements_training_) ∧
    L.perm_.mergeSort = List.range L.elements_training_ ∧
    L.elements_training_ = d.GetTrainingSamples := by
  have hp := reachable_permOK d bs p s L h
  refine ⟨by simpa using hp.length_eq, hp, ?_, reachable_training_count d bs p s L h⟩
  exact List.eq_of_perm_of_sorted ((List.mergeSort_perm L.perm_ _).trans hp)
    (List.sorted_mergeSort' L.perm_) (List.sorted_le_range _)

/-- Witness for C4 at a concrete reachable state: the state after one
`FeedForward` call on a freshly constructed layer over `dsFive`. -/
theorem C4_perm_bijection_witness :
    ((DatasetInputLayer.construct dsFive 3 1 42).FeedForward).layer.perm_.length =
      ((DatasetInputLayer.construct dsFive 3 1 42).FeedForward).layer.elements_training_ ∧
    List.Perm ((DatasetInputLayer.construct dsFive 3 1 42).FeedForward).layer.perm_
      (List.range
        ((DatasetInputLayer.construct dsFive 3 1 42).FeedForward).layer.elements_training_) ∧
    ((DatasetInputLayer.construct dsFive 3 1 42).FeedForward).layer.perm_.mergeSort =
      List.range
        ((DatasetInputLayer.construct dsFive 3 1 42).FeedForward).layer.elements_training_ ∧
    ((DatasetInputLayer.construct dsFive 3 1 42).FeedForward).layer.elements_training_ =
      dsFive.GetTrainingSamples :=
  C4_perm_bijection dsFive 3 1 42 _ (Reachable.feed _ Reachable.construct)

/-- Claim C2 (amended): `SetTestingMode(true)` resets the testing cursor to
`0` only on an actual mode change (entering testing mode from training
mode); when the layer is already in testing mode the call leaves the cursor
unchanged.  In every case the mode flag becomes `true`. -/
theorem C2_SetTestingMode_reset (L : DatasetInputLayer) :
    (L.SetTestingMode true).current_element_testing_ =
      (if L.testing_ then L.current_element_testing_ else 0) ∧
    (L.SetTestingMode true).testing_ = true := by
  constructor
  · simp only [DatasetInputLayer.SetTestingMode]
    by_cases h : L.testing_
    · simp [h]
    · simp [h]
  · simp only [DatasetInputLayer.SetTestingMode]

/-- Reachable state for the C2 counterexample: enter testing mode over
`dsTwoThree` and perform one single-sample `FeedForward`, leaving the
testing cursor at `1`. -/
def layerC2 : DatasetInputLayer :=
  (((DatasetInputLayer.construct dsTwoThree 1 1 7).SetTestingMode true).FeedForward).layer

/-- Claim C2 counterexample: `layerC2` is already in testing mode with the
testing cursor at `1`; a consecutive `SetTestingMode(true)` call (with no
intervening training-mode fetch) leaves the cursor at `1` instead of
resetting it to `0` as the claim requires. -/
theorem C2_counterexample :
    layerC2.testing_ = true ∧
    layerC2.current_element_testing_ = 1 ∧
    (layerC2.SetTestingMode true).current_element_testing_ = 1 := by
  refine ⟨rfl, rfl, rfl⟩

/-- Layer over `dsTwoThree` after one training-mode fetch: the training
cursor sits at `1`, one step before the permutation length `2`. -/
def layerC3 : DatasetInputLayer :=
  ((DatasetInputLayer.construct dsTwoThree 1 1 7).FeedForward).layer

/-- Layer over `dsOneOne` in testing mode with a fresh cursor. -/
def layerC3t : DatasetInputLayer :=
  (DatasetInputLayer.construct dsOneOne 1 1 7).SetTestingMode true

/-- Claim C3 (amended): the training cursor resets to `0` (with a reshuffle)
when the incremented cursor reaches the permutation length, but the testing
cursor never resets inside `FeedForward`: every testing-mode fetch advances
it by one, so it keeps advancing past `testing_count`; only
`SetTestingMode` entering testing mode resets it. -/
theorem C3_cursor_wrap (L : DatasetInputLayer) :
    (L.testing_ = false → L.current_element_ + 1 = L.perm_.length →
      (L.selectElement).layer.current_element_ = 0 ∧
      (L.selectElement).layer.reshuffles_ghost = L.reshuffles_ghost + 1) ∧
    (L.testing_ = false → L.current_element_ + 1 < L.perm_.length →
      (L.selectElement).layer.current_element_ = L.current_element_ + 1) ∧
    (L.testing_ = true →
      (L.selectElement).layer.current_element_testing_ =
        L.current_element_testing_ + 1) := by
  refine ⟨?_, ?_, ?_⟩
  · intro ht hw
    simp only [DatasetInputLayer.selectElement, ht, Bool.false_eq_true, if_false]
    rw [← hw]
    simp [DatasetInputLayer.RedoPermutation]
  · intro ht hw
    simp only [DatasetInputLayer.selectElement, ht, Bool.false_eq_true, if_false]
    rw [if_neg (by omega)]
  · intro ht
    simp only [DatasetInputLayer.selectElement, ht, if_true]
    split <;> rfl

/-- Witness for C3 at concrete states: `layerC3` is a training-mode state
whose cursor is one step below the permutation length, and `layerC3t` is a
testing-mode state. -/
theorem C3_cursor_wrap_witness :
    (layerC3.testing_ = false ∧ layerC3.current_element_ + 1 = layerC3.perm_.length ∧
      (layerC3.selectElement).layer.current_element_ = 0 ∧
      (layerC3.selectElement).layer.reshuffles_ghost = layerC3.reshuffles_ghost + 1) ∧
    (layerC3t.testing_ = true ∧
      (layerC3t.selectElement).layer.current_element_testing_ =
        layerC3t.current_element_testing_ + 1) :=
  ⟨⟨rfl, by decide, (C3_cursor_wrap layerC3).1 rfl (by decide)⟩,
   ⟨rfl, (C3_cursor_wrap layerC3t).2.2 rfl⟩⟩

/-- Claim C3 counterexample: over `dsOneOne` (testing count `1`) the testing
cursor reaches `1 = testing_count` after one testing-mode fetch and, instead
of resetting to `0`, continues to `2` after the next fetch. -/
theorem C3_counterexample :
    layerC3t.elements_testing_ = 1 ∧
    ((layerC3t.FeedForward).layer.current_element_testing_ = 1 ∧
      (((layerC3t.FeedForward).layer.FeedForward).layer.current_element_testing_ = 2)) := by
  refine ⟨rfl, rfl, rfl⟩

theorem Connect_some_iff (inputs outputs : List CTPtr) :
    DatasetInputLayer.Connect inputs outputs ≠ none ↔ 4 ≤ outputs.length := by
  rcases outputs with _ | ⟨d, _ | ⟨l, _ | ⟨hm, _ | ⟨e, rest⟩⟩⟩⟩
  · simp [DatasetInputLayer.Connect]
  · simp [DatasetInputLayer.Connect]
  · simp [DatasetInputLayer.Connect]
  · simp [DatasetInputLayer.Connect]
  · simp only [DatasetInputLayer.Connect]
    constructor
    · intro _
      simp only [List.length_cons]
      omega
    · intro _
      split <;> simp

/-- Claim C10: `Connect` reads `outputs[0] ... outputs[3]` before its arity
check runs, so every vector access in `Connect` is in-bounds (the embedded
total function avoids its out-of-range result `none`) exactly under the
caller-supplied precondition `outputs.size() >= 4`; in particular, for
shorter vectors the accesses are out of range even though the arity check
exists further down. -/
theorem C10_Connect_accesses (inputs outputs : List CTPtr) :
    DatasetInputLayer.Connect inputs outputs ≠ none ↔ 4 ≤ outputs.length :=
  Connect_some_iff inputs outputs

/-- Claim C9 (amended): when its accesses are in-bounds, `Connect` returns
`true` iff it got zero inputs, exactly four outputs, and the data, label
and localized-error outputs (`outputs[0]`, `outputs[1]`, `outputs[3]`) are
non-null — the helper output `outputs[2]` is not null-checked; and it binds
the four output members exactly when it returns `true`. -/
theorem C9_Connect_validation (inputs outputs : List CTPtr) (r : ConnectResult)
    (h : DatasetInputLayer.Connect inputs outputs = some r) :
    (r.ret = true ↔
      inputs.length = 0 ∧ outputs.length = 4 ∧
      outputs.getD 0 none ≠ none ∧ outputs.getD 1 none ≠ none ∧
      outputs.getD 3 none ≠ none) ∧
    (r.bound ≠ none ↔ r.ret = true) := by
  rcases outputs with _ | ⟨d, _ | ⟨l, _ | ⟨hm, _ | ⟨e, rest⟩⟩⟩⟩ <;>
    simp only [DatasetInputLayer.Connect] at h
  · exact absurd h (by simp)
  · exact absurd h (by simp)
  · exact absurd h (by simp)
  · exact absurd h (by simp)
  · simp only [List.getD_cons_zero, List.getD_cons_succ]
    split at h
    · rename_i hnull
      simp only [Option.some.injEq] at h
      subst h
      refine ⟨?_, by simp⟩
      simp only [Bool.false_eq_true, false_iff]
      intro hc
      rcases hnull with h0 | h0 | h0
      · exact hc.2.2.1 h0
      · exact hc.2.2.2.1 h0
      · exact hc.2.2.2.2 h0
    · rename_i hnull
      push_neg at hnull
      simp only [Option.some.injEq] at h
      subst h
      constructor
      · simp only [Bool.and_eq_true, beq_iff_eq]
        constructor
        · intro hc
          exact ⟨hc.1, hc.2, hnull.1, hnull.2.1, hnull.2.2⟩
        · intro hc
          exact ⟨hc.1, hc.2.1⟩
      · by_cases hv : (inputs.length == 0 && (d :: l :: hm :: e :: rest).length == 4) = true
        · simp [hv]
        · simp [hv]

/-- Witness for C9 at a concrete successful `Connect` call with four
non-null outputs and no inputs. -/
theorem C9_Connect_validation_witness :
    ((⟨true, some (some 1, some 2, some 3, some 4)⟩ : ConnectResult).ret = true ↔
      ([] : List CTPtr).length = 0 ∧
      ([some 1, some 2, some 3, some 4] : List CTPtr).length = 4 ∧
      ([some 1, some 2, some 3, some 4] : List CTPtr).getD 0 none ≠ none ∧
      ([some 1, some 2, some 3, some 4] : List CTPtr).getD 1 none ≠ none ∧
      ([some 1, some 2, some 3, some 4] : List CTPtr).getD 3 none ≠ none) ∧
    ((⟨true, some (some 1, some 2, some 3, some 4)⟩ : ConnectResult).bound ≠ none ↔
      (⟨true, some (some 1, some 2, some 3, some 4)⟩ : ConnectResult).ret = true) :=
  C9_Connect_validation [] [some 1, some 2, some 3, some 4] _ rfl

/-- Claim C9 counterexample: with zero inputs and exactly four outputs whose
helper slot (`outputs[2]`) is a null pointer, `Connect` nevertheless returns
`true` (and binds the members, storing the null helper pointer) — refuting
"returns true if and only if ... exactly four outputs all of which are
non-null". -/
theorem C9_counterexample :
    DatasetInputLayer.Connect [] [some 1, some 2, none, some 4] =
      some { ret := true, bound := some (some 1, some 2, none, some 4) } ∧
    ([some 1, some 2, none, some 4] : List CTPtr).getD 2 none = none := by
  refine ⟨rfl, rfl⟩

/-- Layer over `dsOneTwo` (testing count `2`) put into testing mode with a
fresh cursor, batch size `2`. -/
def layerC1 : DatasetInputLayer :=
  (DatasetInputLayer.construct dsOneTwo 2 1 7).SetTestingMode true

/-- Claim C1, evaluated at the failing input: with `testing_count = 2`,
`batch_size = 2` and a fresh testing cursor, the single `FeedForward` call
serves index `0` and then a forced-index-`0` padding slot: the last testing
index `1` is never selected, and padding begins before it is served,
because the testing cursor is incremented before the exhaustion check. -/
theorem C1_failing_input_eval :
    (layerC1.FeedForward).slots.map
        (fun sw => (sw.1.selected_element, sw.1.force_no_weight)) =
      [(0, false), (0, true)] ∧
    layerC1.elements_testing_ = 2 ∧
    layerC1.current_element_testing_ = 0 := by
  refine ⟨rfl, rfl, rfl⟩

/-- Claim C6: two layer instances constructed with the same dataset, batch
size, loss-sampling probability and (nonzero) seed produce identical
sequences of selected sample indices over any fixed number of `FeedForward`
calls: the generator is instance-owned, seeded once at construction and
never reseeded, so the whole run is a function of the constructor
arguments. -/
theorem C6_determinism (d : Dataset) (bs : Nat) (p : ℚ) (s : Nat) (hs : s ≠ 0)
    (L1 L2 : DatasetInputLayer)
    (h1 : L1 = DatasetInputLayer.construct d bs p s)
    (h2 : L2 = DatasetInputLayer.construct d bs p s) (n : Nat) :
    runCalls n L1 = runCalls n L2 := by
  subst h1
  subst h2
  rfl

/-- Witness for C6 over `dsFive` with seed `42`. -/
theorem C6_determinism_witness :
    (42 : Nat) ≠ 0 ∧
    runCalls 2 (DatasetInputLayer.construct dsFive 3 (1 / 2) 42) =
      runCalls 2 (DatasetInputLayer.construct dsFive 3 (1 / 2) 42) :=
  ⟨by decide, C6_determinism dsFive 3 (1 / 2) 42 (by decide) _ _ rfl rfl 2⟩

/-- Claim C8: a failed dataset fetch is immediately fatal.  A batch slot
fails exactly when its mode-dependent dataset fetch returns failure, with
the `FATAL` message of the source; and whenever the current slot fails, the
whole `FeedForward` call ends at once with the fatal outcome carrying
exactly the previously filled slots — the failing sample is neither retried
nor skipped, and none of the remaining slots of the call are filled. -/
theorem C8_fatal_fetch (L : DatasetInputLayer) :
    (∀ msg, L.processSlot = .error msg ↔
      ((if L.testing_ then
          L.dataset_.GetTestingSample (L.selectElement).selected_element
        else
          L.dataset_.GetTrainingSample (L.selectElement).selected_element) = none ∧
        msg = "Cannot load samples from Dataset!")) ∧
    (∀ (n : Nat) (acc : List (Selection × WMap)) (msg : String),
      L.processSlot = .error msg →
      DatasetInputLayer.feedForwardAux (n + 1) L acc = .fatal msg acc.reverse L) := by
  constructor
  · intro msg
    simp only [DatasetInputLayer.processSlot]
    split
    · rename_i hf
      simp only [hf, Except.error.injEq, true_and]
      exact ⟨fun h => h.symm, fun h => h.symm⟩
    · rename_i wm hf
      simp only [hf]
      constructor
      · intro h
        exact absurd h (by simp)
      · intro h
        exact absurd h.1 (by simp)
  · intro n acc msg hmsg
    unfold DatasetInputLayer.feedForwardAux
    rw [hmsg]

/-- Dataset whose every fetch fails. -/
def dsFail : Dataset := ⟨1, 1, 1, 1, 1, 1, fun _ => none, fun _ => none⟩

/-- Training-mode layer over the always-failing dataset. -/
def layerC8 : DatasetInputLayer := DatasetInputLayer.construct dsFail 3 1 7

/-- Witness for C8: over `dsFail` the first slot's fetch fails, and a
`FeedForward` with three slots ends fatally with zero filled slots. -/
theorem C8_fatal_fetch_witness :
    (layerC8.processSlot = .error "Cannot load samples from Dataset!" ↔
      ((if layerC8.testing_ then
          layerC8.dataset_.GetTestingSample (layerC8.selectElement).selected_element
        else
          layerC8.dataset_.GetTrainingSample (layerC8.selectElement).selected_element) = none ∧
        "Cannot load samples from Dataset!" = "Cannot load samples from Dataset!")) ∧
    DatasetInputLayer.feedForwardAux (2 + 1) layerC8 [] =
      .fatal "Cannot load samples from Dataset!" ([] : List (Selection × WMap)).reverse layerC8 :=
  ⟨(C8_fatal_fetch layerC8).1 "Cannot load samples from Dataset!",
   (C8_fatal_fetch layerC8).2 2 [] "Cannot load samples from Dataset!" rfl⟩

theorem shuffle_length (l : List Nat) (g : Generator) :
    (shuffle l g).1.length = l.length :=
  (shuffle_perm l g).length_eq

theorem selectElement_train_wrap (M : DatasetInputLayer) (ht : M.testing_ = false)
    (hw : M.perm_.length ≤ M.current_element_ + 1) :
    M.selectElement =
      { selected_element := M.perm_.getD M.current_element_ 0,
        force_no_weight := false,
        layer := DatasetInputLayer.RedoPermutation { M with current_element_ := 0 } } := by
  simp only [DatasetInputLayer.selectElement, ht, Bool.false_eq_true, if_false, if_pos hw]

theorem selectElement_train_nowrap (M : DatasetInputLayer) (ht : M.testing_ = false)
    (hw : ¬ M.perm_.length ≤ M.current_element_ + 1) :
    M.selectElement =
      { selected_element := M.perm_.getD M.current_element_ 0,
        force_no_weight := false,
        layer := { M with current_element_ := M.current_element_ + 1 } } := by
  simp only [DatasetInputLayer.selectElement, ht, Bool.false_eq_true, if_false, if_neg hw]

/-- A run of `k` consecutive training-mode fetches, at the granularity of
single batch slots as they occur inside `FeedForward`: each fetch evolves
the cursor/permutation state by `selectElement`, and between two fetches the
generator may additionally advance (the loss-sampling draws that happen
after each selection). -/
inductive TrainChain : Nat → DatasetInputLayer → DatasetInputLayer → Prop
  | refl (L : DatasetInputLayer) : TrainChain 0 L L
  | step (n : Nat) (L M : DatasetInputLayer) (g : Generator) :
      TrainChain n L M →
      TrainChain (n + 1) L { (M.selectElement).layer with generator_ := g }

theorem trainChain_invariant (N : Nat) (k : Nat) (L M : DatasetInputLayer)
    (hch : TrainChain k L M) :
    L.testing_ = false → L.current_element_ = 0 → L.perm_.length = N → k ≤ N → 0 < N →
    M.testing_ = false ∧ M.perm_.length = N ∧
    (k < N → M.current_element_ = k ∧ M.reshuffles_ghost = L.reshuffles_ghost) ∧
    (k = N → M.current_element_ = 0 ∧
      M.reshuffles_ghost = L.reshuffles_ghost + 1) := by
  induction hch with
  | refl L =>
    intro hT h0 hlen hkN hpos
    exact ⟨hT, hlen, fun _ => ⟨h0, rfl⟩, fun hk => absurd hk.symm (by omega)⟩
  | step n L M g hch ih =>
    intro hT h0 hlen hkN hpos
    have hn : n ≤ N := by omega
    have hnN : n < N := by omega
    obtain ⟨hMt, hMlen, hmid, _⟩ := ih hT h0 hlen hn hpos
    obtain ⟨hMcur, hMres⟩ := hmid hnN
    by_cases hw : M.perm_.length ≤ M.current_element_ + 1
    · have hNn : n + 1 = N := by
        rw [hMlen, hMcur] at hw
        omega
      rw [selectElement_train_wrap M hMt hw]
      refine ⟨hMt, ?_, ?_, ?_⟩
      · simp only [DatasetInputLayer.RedoPermutation]
        rw [shuffle_length]
        exact hMlen
      · intro hc
        exact absurd hNn (by omega)
      · intro _
        constructor
        · rfl
        · simp only [DatasetInputLayer.RedoPermutation]
          rw [hMres]
    · rw [selectElement_train_nowrap M hMt hw]
      refine ⟨hMt, hMlen, ?_, ?_⟩
      · intro _
        exact ⟨by rw [hMcur], hMres⟩
      · intro hc
        rw [hMlen, hMcur] at hw
        omega

/-- Claim C5: in training mode each batch slot of `FeedForward` selects
`perm_[current_element_]` and then advances the cursor, leaving the
permutation and reshuffle count untouched while the incremented cursor is
still below the permutation length, and resetting the cursor to `0` while
reshuffling the entire permutation in place (with the layer's generator)
when it reaches the length; consequently, starting from cursor `0`, after
exactly `training_count` consecutive training-mode fetches the cursor has
returned to `0` and exactly one reshuffle has occurred. -/
theorem C5_training_pass (N : Nat) (L M : DatasetInputLayer)
    (hT : L.testing_ = false) (h0 : L.current_element_ = 0)
    (hlen : L.perm_.length = N) (hpos : 0 < N)
    (hchain : TrainChain N L M) :
    M.current_element_ = 0 ∧
    M.reshuffles_ghost = L.reshuffles_ghost + 1 ∧
    (∀ K : DatasetInputLayer, K.testing_ = false →
      (K.selectElement).selected_element = K.perm_.getD K.current_element_ 0 ∧
      (K.current_element_ + 1 < K.perm_.length →
        (K.selectElement).layer.current_element_ = K.current_element_ + 1 ∧
        (K.selectElement).layer.perm_ = K.perm_ ∧
        (K.selectElement).layer.reshuffles_ghost = K.reshuffles_ghost) ∧
      (K.perm_.length ≤ K.current_element_ + 1 →
        (K.selectElement).layer.current_element_ = 0 ∧
        (K.selectElement).layer.perm_ = (shuffle K.perm_ K.generator_).1 ∧
        (K.selectElement).layer.reshuffles_ghost = K.reshuffles_ghost + 1)) := by
  have hinv := trainChain_invariant N N L M hchain hT h0 hlen (le_refl N) hpos
  obtain ⟨_, _, _, hend⟩ := hinv
  obtain ⟨hc, hr⟩ := hend rfl
  refine ⟨hc, hr, ?_⟩
  intro K hKt
  refine ⟨?_, ?_, ?_⟩
  · by_cases hw : K.perm_.length ≤ K.current_element_ + 1
    · rw [selectElement_train_wrap K hKt hw]
    · rw [selectElement_train_nowrap K hKt hw]
  · intro hlt
    rw [selectElement_train_nowrap K hKt (by omega)]
    exact ⟨rfl, rfl, rfl⟩
  · intro hge
    rw [selectElement_train_wrap K hKt hge]
    simp [DatasetInputLayer.RedoPermutation]

/-- Training-mode layer over `dsTwoThree` used by the C5 witness: cursor `0`,
permutation length `2`. -/
abbrev layerC5 : DatasetInputLayer := DatasetInputLayer.construct dsTwoThree 1 1 7

/-- `layerC5` after one training fetch (generator left as the fetch left it). -/
abbrev layerC5b : DatasetInputLayer :=
  { (layerC5.selectElement).layer with generator_ := (layerC5.selectElement).layer.generator_ }

/-- `layerC5b` after another training fetch. -/
abbrev layerC5c : DatasetInputLayer :=
  { (layerC5b.selectElement).layer with generator_ := (layerC5b.selectElement).layer.generator_ }

/-- Witness for C5: a concrete chain of `training_count = 2` fetches returns
the cursor to `0` with exactly one reshuffle, and the first fetch selects
`perm_[0]`.  Additionally the spec's end-to-end example: over `dsFive`
(`training_count = 5`) with `batch_size = 3`, the second `FeedForward` call
serves `perm_[3]`, `perm_[4]`, and then `perm_[0]` of the freshly
reshuffled permutation. -/
theorem C5_training_pass_witness :
    layerC5c.current_element_ = 0 ∧
    layerC5c.reshuffles_ghost = layerC5.reshuffles_ghost + 1 ∧
    (layerC5.selectElement).selected_element =
      layerC5.perm_.getD layerC5.current_element_ 0 ∧
    (((DatasetInputLayer.construct dsFive 3 1 42).FeedForward).layer.FeedForward).slots.map
        (fun sw => sw.1.selected_element) =
      [(DatasetInputLayer.construct dsFive 3 1 42).perm_.getD 3 0,
       (DatasetInputLayer.construct dsFive 3 1 42).perm_.getD 4 0,
       (((DatasetInputLayer.construct dsFive 3 1 42).FeedForward).layer.FeedForward).layer.perm_.getD 0 0] := by
  have hch : TrainChain 2 layerC5 layerC5c :=
    TrainChain.step 1 layerC5 layerC5b _
      (TrainChain.step 0 layerC5 layerC5 _ (TrainChain.refl layerC5))
  have main := C5_training_pass 2 layerC5 layerC5c rfl rfl (by decide) (by decide) hch
  exact ⟨main.1, main.2.1, (main.2.2 layerC5 rfl).1, by decide⟩

theorem Generator.next_fst_lt (g : Generator) : g.next.1 < 65537 := by
  simp only [Generator.next]
  exact Nat.mod_lt _ (by decide)

theorem unitDraw_nonneg (g : Generator) : 0 ≤ (unitDraw g).1 := by
  simp only [unitDraw]
  positivity

theorem unitDraw_lt_one (g : Generator) : (unitDraw g).1 < 1 := by
  simp only [unitDraw]
  rw [div_lt_one (by positivity)]
  exact_mod_cast Generator.next_fst_lt g

theorem nthDraw_nonneg (g : Generator) (k : Nat) : 0 ≤ nthDraw g k :=
  unitDraw_nonneg _

theorem nthDraw_lt_one (g : Generator) (k : Nat) : nthDraw g k < 1 :=
  unitDraw_lt_one _

theorem foldl_blockStep_gen (w h : Nat) (p : ℚ) :
    ∀ (bs : List (Nat × Nat)) (m : WMap) (g : Generator),
      (bs.foldl (blockStep w h p) (m, g)).2 = g.advanceN bs.length := by
  intro bs
  induction bs with
  | nil => intro m g; rfl
  | cons b rest ih =>
    intro m g
    have e : blockStep w h p (m, g) b = ((blockStep w h p (m, g) b).1, g.next.2) := rfl
    calc ((b :: rest).foldl (blockStep w h p) (m, g)).2
        = (rest.foldl (blockStep w h p) (blockStep w h p (m, g) b)).2 := rfl
      _ = (rest.foldl (blockStep w h p) ((blockStep w h p (m, g) b).1, g.next.2)).2 := by rw [← e]
      _ = (g.next.2).advanceN rest.length := ih _ _
      _ = g.advanceN (b :: rest).length := rfl

theorem foldl_blockStep_val (w h : Nat) (p : ℚ) :
    ∀ (bs : List (Nat × Nat)) (m : WMap) (g : Generator) (x y : Nat),
      ((∃ i, ∃ hi : i < bs.length,
          covers w h (bs.get ⟨i, hi⟩) x y ∧ p < nthDraw g i) →
        ((bs.foldl (blockStep w h p) (m, g)).1) x y = 0) ∧
      ((∀ (i : Nat) (hi : i < bs.length),
          ¬(covers w h (bs.get ⟨i, hi⟩) x y ∧ p < nthDraw g i)) →
        ((bs.foldl (blockStep w h p) (m, g)).1) x y = m x y) := by
  intro bs
  induction bs with
  | nil =>
    intro m g x y
    constructor
    · rintro ⟨i, hi, _⟩
      simp at hi
    · intro _
      rfl
  | cons b rest ih =>
    intro m g x y
    have e : blockStep w h p (m, g) b =
        ((if p < (unitDraw g).1 then zeroBlock w h b.1 b.2 m else m), g.next.2) := rfl
    have efold : ((b :: rest).foldl (blockStep w h p) (m, g)).1 =
        (rest.foldl (blockStep w h p)
          ((if p < (unitDraw g).1 then zeroBlock w h b.1 b.2 m else m), g.next.2)).1 := by
      show (rest.foldl (blockStep w h p) (blockStep w h p (m, g) b)).1 = _
      rw [e]
    constructor
    · rintro ⟨i, hi, hcov, hdraw⟩
      rw [efold]
      cases i with
      | zero =>
        have hdraw' : p < (unitDraw g).1 := hdraw
        have hm1 : (if p < (unitDraw g).1 then zeroBlock w h b.1 b.2 m else m) x y = 0 := by
          rw [if_pos hdraw']
          simp only [zeroBlock]
          have hcov' : covers w h (b.1, b.2) x y := hcov
          rw [if_pos hcov']
        rcases Classical.em (∃ j, ∃ hj : j < rest.length,
            covers w h (rest.get ⟨j, hj⟩) x y ∧ p < nthDraw g.next.2 j) with htr | htr
        · exact (ih _ g.next.2 x y).1 htr
        · have hall : ∀ (j : Nat) (hj : j < rest.length),
              ¬(covers w h (rest.get ⟨j, hj⟩) x y ∧ p < nthDraw g.next.2 j) :=
            fun j hj hc => htr ⟨j, hj, hc⟩
          exact ((ih _ g.next.2 x y).2 hall).trans hm1
      | succ i =>
        have hi' : i < rest.length := by simpa using hi
        exact (ih _ g.next.2 x y).1 ⟨i, hi', hcov, hdraw⟩
    · intro hall
      rw [efold]
      have h0 := hall 0 (Nat.succ_pos _)
      have hm1 : (if p < (unitDraw g).1 then zeroBlock w h b.1 b.2 m else m) x y = m x y := by
        by_cases hd : p < (unitDraw g).1
        · rw [if_pos hd]
          simp only [zeroBlock]
          rw [if_neg]
          intro hcov
          exact h0 ⟨hcov, hd⟩
        · rw [if_neg hd]
      have hrest : ∀ (j : Nat) (hj : j < rest.length),
          ¬(covers w h (rest.get ⟨j, hj⟩) x y ∧ p < nthDraw g.next.2 j) :=
        fun j hj => hall (j + 1) (Nat.succ_lt_succ hj)
      exact ((ih _ g.next.2 x y).2 hrest).trans hm1

/-- The corner offset of the loss-sampling block containing coordinate `v`:
the largest multiple of `block_size` not exceeding `v`. -/
def blockOf (v : Nat) : Nat := v / block_size * block_size

theorem blockOf_mem_blockStarts (v bound : Nat) (hv : v < bound) :
    blockOf v ∈ blockStarts bound := by
  simp only [blockStarts, List.mem_map, List.mem_range]
  refine ⟨v / block_size, ?_, rfl⟩
  have h1 : v / block_size ≤ (bound - 1) / block_size :=
    Nat.div_le_div_right (by omega)
  have h2 : bound + block_size - 1 = (bound - 1) + block_size := by
    simp only [block_size]
    omega
  rw [h2, Nat.add_div_right _ (by simp [block_size])]
  exact Nat.lt_succ_of_le h1

theorem covers_blockOf (w h x y : Nat) (hx : x < w) (hy : y < h) :
    covers w h (blockOf x, blockOf y) x y := by
  have hdx := Nat.div_add_mod x block_size
  have hmx : x % block_size < block_size := Nat.mod_lt _ (by simp [block_size])
  have hdy := Nat.div_add_mod y block_size
  have hmy : y % block_size < block_size := Nat.mod_lt _ (by simp [block_size])
  simp only [covers, blockOf, block_size] at *
  omega

theorem blockOf_mem_blockList (w h x y : Nat) (hx : x < w) (hy : y < h) :
    (blockOf x, blockOf y) ∈ blockList w h := by
  simp only [blockList, List.mem_flatten, List.mem_map]
  refine ⟨(blockStarts w).map (fun x0 => (x0, blockOf y)),
    ⟨blockOf y, blockOf_mem_blockStarts y h hy, rfl⟩, ?_⟩
  simp only [List.mem_map]
  exact ⟨blockOf x, blockOf_mem_blockStarts x w hx, rfl⟩

theorem blockList_covers_unique (w h x y : Nat) (b : Nat × Nat)
    (hb : b ∈ blockList w h) (hcov : covers w h b x y) :
    b = (blockOf x, blockOf y) := by
  have hshape : (∃ i, b.1 = i * block_size) ∧ (∃ j, b.2 = j * block_size) := by
    simp only [blockList, List.mem_flatten, List.mem_map, blockStarts,
      List.mem_range] at hb
    obtain ⟨l, ⟨y0, ⟨⟨j, _, rfl⟩, rfl⟩⟩, hbl⟩ := hb
    simp only [List.mem_map, List.mem_range] at hbl
    obtain ⟨x0, ⟨i, _, rfl⟩, rfl⟩ := hbl
    exact ⟨⟨i, rfl⟩, ⟨j, rfl⟩⟩
  obtain ⟨⟨i, hbi⟩, ⟨j, hbj⟩⟩ := hshape
  have hdx := Nat.div_add_mod x block_size
  have hmx : x % block_size < block_size := Nat.mod_lt _ (by simp [block_size])
  have hdy := Nat.div_add_mod y block_size
  have hmy : y % block_size < block_size := Nat.mod_lt _ (by simp [block_size])
  obtain ⟨b1, b2⟩ := b
  simp only at hbi hbj
  subst hbi
  subst hbj
  simp only [covers, blockOf, block_size] at *
  simp only [Prod.mk.injEq]
  constructor
  · omega
  · omega

theorem processSlot_testing (L : DatasetInputLayer) (sw : Selection × WMap)
    (ht : L.testing_ = true) (hok : L.processSlot = .ok sw) :
    sw.1.layer.generator_ = L.generator_ ∧
    (sw.1.force_no_weight = false →
      L.dataset_.GetTestingSample sw.1.selected_element = some sw.2) ∧
    (sw.1.force_no_weight = true → sw.2 = fun _ _ => (0 : ℚ)) := by
  have hgen : (L.selectElement).layer.generator_ = L.generator_ := by
    simp only [DatasetInputLayer.selectElement, ht, if_true]
    split <;> rfl
  simp only [DatasetInputLayer.processSlot] at hok
  split at hok
  · simp at hok
  · rename_i wm heq
    rw [ht] at heq
    simp only [if_true] at heq
    simp only [Except.ok.injEq] at hok
    subst hok
    simp only [ht, Bool.not_true, Bool.false_and, Bool.false_eq_true, if_false]
    refine ⟨hgen, ?_, ?_⟩
    · intro hfnw
      simp only [hfnw, Bool.false_eq_true, if_false]
      exact heq
    · intro hfnw
      simp only [hfnw, if_true]

theorem processSlot_training (L : DatasetInputLayer) (sw : Selection × WMap) (wm : WMap)
    (ht : L.testing_ = false) (hok : L.processSlot = .ok sw)
    (hf : L.dataset_.GetTrainingSample (L.selectElement).selected_element = some wm) :
    (L.selectElement).force_no_weight = false ∧
    sw.1.layer.generator_ =
      (blockSample L.dataset_.GetWidth L.dataset_.GetHeight L.loss_sampling_p_ wm
        (L.selectElement).layer.generator_).2 ∧
    sw.2 = (blockSample L.dataset_.GetWidth L.dataset_.GetHeight L.loss_sampling_p_ wm
        (L.selectElement).layer.generator_).1 := by
  have hfnw : (L.selectElement).force_no_weight = false := by
    simp only [DatasetInputLayer.selectElement, ht, Bool.false_eq_true, if_false]
    split <;> rfl
  simp only [DatasetInputLayer.processSlot] at hok
  split at hok
  · rename_i heq
    rw [ht] at heq
    simp only [Bool.false_eq_true, if_false] at heq
    rw [heq] at hf
    simp at hf
  · rename_i wm2 heq
    rw [ht] at heq
    simp only [Bool.false_eq_true, if_false] at heq
    rw [heq] at hf
    simp only [Option.some.injEq] at hf
    subst hf
    simp only [Except.ok.injEq] at hok
    subst hok
    simp only [ht, Bool.not_false, hfnw, Bool.true_and, Bool.not_true,
      Bool.false_eq_true, if_false, if_true]
    exact ⟨trivial, trivial, trivial⟩

/-- Claim C7: loss down-sampling runs only in training mode on non-padding
samples.  (a) In testing mode a slot never consumes a draw (the generator is
untouched) and its loss-weight map is exactly the fetched one, or all-zero
for a padding slot.  (b) In training mode a slot is never a padding sample
and its loss-weight map is exactly the fetched map transformed by the block
nest, which also advances the shared generator.  (c) The nest takes exactly
one uniform draw per visited block from the shared generator.  (d) With
`p = 1` no weight is ever changed (every draw lies in `[0, 1)`, never above
`1`).  (e) The visited blocks are the non-overlapping `block_size`-aligned
blocks clipped at the image boundary: every in-range coordinate lies in
exactly one visited block.  (f) Pointwise, a weight becomes `0` when the
draw of a covering block (by (e), its unique one) exceeds `p`, and is left
untouched when no covering block's draw exceeds `p`. -/
theorem C7_loss_sampling_blocks
    (L1 L2 : DatasetInputLayer) (sw1 sw2 : Selection × WMap)
    (wm m : WMap) (w h x y : Nat) (p : ℚ) (g : Generator) :
    (L1.testing_ = true → L1.processSlot = .ok sw1 →
      sw1.1.layer.generator_ = L1.generator_ ∧
      (sw1.1.force_no_weight = false →
        L1.dataset_.GetTestingSample sw1.1.selected_element = some sw1.2) ∧
      (sw1.1.force_no_weight = true → sw1.2 = fun _ _ => (0 : ℚ))) ∧
    (L2.testing_ = false → L2.processSlot = .ok sw2 →
      L2.dataset_.GetTrainingSample (L2.selectElement).selected_element = some wm →
      (L2.selectElement).force_no_weight = false ∧
      sw2.1.layer.generator_ =
        (blockSample L2.dataset_.GetWidth L2.dataset_.GetHeight L2.loss_sampling_p_ wm
          (L2.selectElement).layer.generator_).2 ∧
      sw2.2 = (blockSample L2.dataset_.GetWidth L2.dataset_.GetHeight L2.loss_sampling_p_ wm
          (L2.selectElement).layer.generator_).1) ∧
    ((blockSample w h p m g).2 = g.advanceN (blockList w h).length) ∧
    ((blockSample w h 1 m g).1 x y = m x y) ∧
    (x < w → y < h →
      (blockOf x, blockOf y) ∈ blockList w h ∧
      covers w h (blockOf x, blockOf y) x y ∧
      ∀ b, b ∈ blockList w h → covers w h b x y → b = (blockOf x, blockOf y)) ∧
    ((∃ i, ∃ hi : i < (blockList w h).length,
        covers w h ((blockList w h).get ⟨i, hi⟩) x y ∧ p < nthDraw g i) →
      (blockSample w h p m g).1 x y = 0) ∧
    ((∀ (i : Nat) (hi : i < (blockList w h).length),
        ¬(covers w h ((blockList w h).get ⟨i, hi⟩) x y ∧ p < nthDraw g i)) →
      (blockSample w h p m g).1 x y = m x y) := by
  refine ⟨processSlot_testing L1 sw1,
          fun ht hok hf => processSlot_training L2 sw2 wm ht hok hf,
          foldl_blockStep_gen w h p (blockList w h) m g,
          ?_, ?_,
          (foldl_blockStep_val w h p (blockList w h) m g x y).1,
          (foldl_blockStep_val w h p (blockList w h) m g x y).2⟩
  · apply (foldl_blockStep_val w h 1 (blockList w h) m g x y).2
    intro i hi hc
    exact absurd hc.2 (not_lt.mpr (nthDraw_lt_one g i).le)
  · intro hx hy
    exact ⟨blockOf_mem_blockList w h x y hx hy, covers_blockOf w h x y hx hy,
           fun b hb hcov => blockList_covers_unique w h x y b hb hcov⟩

/-- Testing-mode layer used by the C7 witness: fresh testing cursor over
`dsTwoThree`. -/
abbrev layerC7t : DatasetInputLayer :=
  (DatasetInputLayer.construct dsTwoThree 1 (1 / 2) 9).SetTestingMode true

/-- The first batch slot produced by `layerC7t`. -/
def swC7t : Selection × WMap :=
  match layerC7t.processSlot with
  | .ok sw => sw
  | .error _ => ⟨⟨0, false, layerC7t⟩, wOne⟩

/-- Training-mode layer used by the C7 witness. -/
abbrev layerC7r : DatasetInputLayer := DatasetInputLayer.construct dsTwoThree 1 (1 / 2) 9

/-- The first batch slot produced by `layerC7r`. -/
def swC7r : Selection × WMap :=
  match layerC7r.processSlot with
  | .ok sw => sw
  | .error _ => ⟨⟨0, false, layerC7r⟩, wOne⟩

/-- Witness for C7 at concrete inputs: a testing slot leaves the generator
untouched; a training slot is non-padding with block-sampled weights; over a
3×3 map there is a single clipped block, the draw count matches, `p = 1`
changes nothing, and with `p = 0` the positive first draw zeroes the
coordinate `(1, 2)`. -/
theorem C7_loss_sampling_blocks_witness :
    swC7t.1.layer.generator_ = layerC7t.generator_ ∧
    (layerC7r.selectElement).force_no_weight = false ∧
    swC7r.2 = (blockSample layerC7r.dataset_.GetWidth layerC7r.dataset_.GetHeight
        layerC7r.loss_sampling_p_ wOne (layerC7r.selectElement).layer.generator_).1 ∧
    (blockSample 3 3 0 wOne ⟨5⟩).2 = Generator.advanceN ⟨5⟩ (blockList 3 3).length ∧
    (blockSample 3 3 1 wOne ⟨5⟩).1 1 2 = wOne 1 2 ∧
    (blockOf 1, blockOf 2) ∈ blockList 3 3 ∧
    (blockSample 3 3 0 wOne ⟨5⟩).1 1 2 = 0 := by
  have main := C7_loss_sampling_blocks layerC7t layerC7r swC7t swC7r wOne wOne 3 3 1 2 0 ⟨5⟩
  refine ⟨(main.1 rfl rfl).1, ?_, ?_, main.2.2.1, main.2.2.2.1,
          (main.2.2.2.2.1 (by decide) (by decide)).1, ?_⟩
  · exact (main.2.1 rfl rfl rfl).1
  · exact (main.2.1 rfl rfl rfl).2.2
  · exact main.2.2.2.2.2.1
      ⟨0, by decide, by decide,
       by simp [nthDraw, unitDraw, Generator.next, Generator.advanceN]⟩
